import Mathlib

/-!
Verification of the backtesting core of the AI-agent hedge-fund repository.

The embedding follows `src/backtester.py` (class `Backtester`) and
`src/agents/risk_manager.py` (class `RiskManager`).  Python floats are
modelled as exact rationals (`ℚ`); Python `int` quantities and share counts
as `ℤ`; the `positions` and `realized_gains` dicts as association lists with
the dict's first-match lookup and in-place update semantics.  Where numpy or
pandas produce NaN (standard deviation of an empty or length-one slice) the
embedding carries an explicit `nan` constructor, and where pandas raises
(`set_index` on an empty frame) the embedding returns `none`.  Square roots
are irrational, so a standard deviation is represented by the variance it is
the square root of (`sqrtOf v` stands for `√v`); this is lossless because
`√v > 0 ↔ v > 0` and `√v = 0 ↔ v = 0` for `v ≥ 0`, which is all the code's
branches ever ask of it.
-/

namespace Backtest

/-- A position entry of `self.portfolio["positions"][ticker]`
(`{"shares": 0, "avg_cost": 0}` initially, see `Backtester.__init__`). -/
structure Position where
  shares : ℤ
  avg_cost : ℚ
deriving DecidableEq, Repr

/-- First-match lookup in an association list, the semantics of a Python
dict read `d[k]` (keys are unique in an actual dict, so first match is the
match). `none` models a `KeyError`. -/
def lookupA {κ α : Type} [DecidableEq κ] (k : κ) : List (κ × α) → Option α
  | [] => none
  | (k', v) :: rest => if k' = k then some v else lookupA k rest

/-- In-place update of an existing key, the semantics of a Python dict
write `d[k] = v` on a key already present; never inserts a new key. -/
def updateA {κ α : Type} [DecidableEq κ] (l : List (κ × α)) (k : κ) (v : α) :
    List (κ × α) :=
  match l with
  | [] => []
  | (k', v') :: rest =>
      if k' = k then (k', v) :: rest else (k', v') :: updateA rest k v

/-- The `self.portfolio` dict of `Backtester`: cash, per-ticker positions
and per-ticker realized gains. -/
structure Portfolio where
  cash : ℚ
  positions : List (String × Position)
  realized_gains : List (String × ℚ)
deriving DecidableEq, Repr

/-- Embedding of `Backtester.__init__`: full initial capital, a zero position and a zero
realized gain for every constructed ticker. -/
def initPortfolio (tickers : List String) (initial_capital : ℚ) : Portfolio :=
  { cash := initial_capital
    positions := tickers.map (fun t => (t, ⟨0, 0⟩))
    realized_gains := tickers.map (fun t => (t, 0)) }

/-- Result of one `execute_trade` call: `raised` is true when the Python
call raises a `KeyError` (unknown ticker on the `position` lookup, or a
missing `realized_gains` entry), and `portfolio` is the ledger state after
the call — on a raise, the state at the moment the exception left the
method. -/
structure TradeResult where
  raised : Bool
  portfolio : Portfolio
deriving DecidableEq, Repr

/-- Embedding of `Backtester.execute_trade` (backtester.py lines 60–92).  Non-positive
quantity returns immediately; the `position` lookup raises `KeyError` for a
ticker absent from `positions`; a buy needs `cash ≥ quantity * price` and
recomputes the weighted average cost; a sell needs `shares ≥ quantity`,
leaves `avg_cost` untouched, and accumulates the realized gain — the
`realized_gains[ticker] += gain` read happens after the share and cash
mutations, so a missing `realized_gains` key raises with those two already
applied.  Any action other than `"buy"`/`"sell"` falls through unchanged. -/
def execute_trade (p : Portfolio) (ticker action : String)
    (quantity : ℤ) (price : ℚ) : TradeResult :=
  if quantity ≤ 0 then ⟨false, p⟩
  else
    match lookupA ticker p.positions with
    | none => ⟨true, p⟩
    | some position =>
      if action = "buy" then
        let total_cost : ℚ := quantity * price
        if total_cost ≤ p.cash then
          let new_total_shares : ℤ := position.shares + quantity
          let new_avg_cost : ℚ :=
            if 0 < new_total_shares then
              ((position.shares : ℚ) * position.avg_cost + total_cost) /
                (new_total_shares : ℚ)
            else 0
          ⟨false,
            { p with
                cash := p.cash - total_cost
                positions := updateA p.positions ticker
                  ⟨new_total_shares, new_avg_cost⟩ }⟩
        else ⟨false, p⟩
      else if action = "sell" then
        if quantity ≤ position.shares then
          let total_sale_value : ℚ := quantity * price
          let realized_gain : ℚ := (price - position.avg_cost) * quantity
          let positions' := updateA p.positions ticker
            { position with shares := position.shares - quantity }
          match lookupA ticker p.realized_gains with
          | none =>
              ⟨true,
                { p with
                    cash := p.cash + total_sale_value
                    positions := positions' }⟩
          | some g =>
              ⟨false,
                { p with
                    cash := p.cash + total_sale_value
                    positions := positions'
                    realized_gains :=
                      updateA p.realized_gains ticker (g + realized_gain) }⟩
        else ⟨false, p⟩
      else ⟨false, p⟩

/-- A trade request as handed to `execute_trade`:
(ticker, action, quantity, price). -/
abbrev Trade := String × String × ℤ × ℚ

/-- Sequential execution of a list of trades, each acting on the ledger the
previous one left behind. -/
def runTrades (p : Portfolio) (ts : List Trade) : Portfolio :=
  ts.foldl (fun q t => (execute_trade q t.1 t.2.1 t.2.2.1 t.2.2.2).portfolio) p

/-- Share count the ledger holds for a ticker (0 when the ticker has no
entry at all). -/
def sharesHeld (p : Portfolio) (ticker : String) : ℤ :=
  (lookupA ticker p.positions).elim 0 Position.shares

/-- Stored average cost for a ticker (0 when the ticker has no entry). -/
def avgCostOf (p : Portfolio) (ticker : String) : ℚ :=
  (lookupA ticker p.positions).elim 0 Position.avg_cost

/-! ## RiskManager (`src/agents/risk_manager.py`) -/

/-- Model of `np.diff(closes) / closes[:-1]`: day-over-day simple returns
`(p[t] - p[t-1]) / p[t-1]` (risk_manager.py line 24). -/
def simpleReturns (closes : List ℚ) : List ℚ :=
  List.zipWith (fun prev cur => (cur - prev) / prev) closes closes.tail

/-- Arithmetic mean of a list (`sum / length`; the guarded callers never
reach the empty case, where rational division by zero yields 0). -/
def meanL (xs : List ℚ) : ℚ := xs.sum / (xs.length : ℚ)

/-- Population variance, the square of `np.std` with the default
`ddof = 0`: `Σ (x - mean)² / n`. -/
def popVariance (xs : List ℚ) : ℚ :=
  ((xs.map (fun x => (x - meanL xs) ^ 2)).sum) / (xs.length : ℚ)

/-- The value `np.std` returns: NaN on an empty slice, otherwise the square
root of the population variance — represented by that variance, written
`sqrtOf v` for `√v`. -/
inductive NpStd where
  | nan : NpStd
  | sqrtOf (variance : ℚ) : NpStd
deriving DecidableEq, Repr

/-- Model of `np.std` applied to a list of rationals. -/
def npStd (xs : List ℚ) : NpStd :=
  if xs.length = 0 then .nan else .sqrtOf (popVariance xs)

/-- Embedding of `RiskManager.get_volatility` (risk_manager.py lines 17–25), applied to
the close series the API returned for the ticker and date range: `None`
when the price list is empty, otherwise `np.std` of the simple returns —
which is NaN (not `None`) when there is exactly one close, since the
returns slice is then empty. -/
def get_volatility (closes : List ℚ) : Option NpStd :=
  if closes.isEmpty then none
  else some (npStd (simpleReturns closes))

/-- The z-score selection of `RiskManager.calculate_var` (line 51):
`1.65 if confidence_level == 0.95 else 2.33` — every confidence level
other than 0.95, valid or not, gets 2.33. -/
def z_score (confidence_level : ℚ) : ℚ :=
  if confidence_level = 95 / 100 then 165 / 100 else 233 / 100

/-- Embedding of `RiskManager.calculate_var` (risk_manager.py lines 45–53), with the
volatility the `get_volatility` call produced passed in as a value: `None`
when volatility is `None`, otherwise
`initial_capital * volatility * z_score`.  No confidence level is ever
rejected. -/
def calculate_var (initial_capital : ℚ) (volatility : Option ℚ)
    (confidence_level : ℚ) : Option ℚ :=
  match volatility with
  | none => none
  | some v => some (initial_capital * v * z_score confidence_level)

/-! ## Performance metrics (`Backtester._compute_performance_metrics`) -/

/-- Model of `df["Portfolio Value"].pct_change().fillna(0)`: the first return is
NaN filled with 0, return `t` is `(v[t] - v[t-1]) / v[t-1]`. -/
def pct_change_fillna (vs : List ℚ) : List ℚ :=
  match vs with
  | [] => []
  | _ :: rest => 0 :: List.zipWith (fun prev cur => (cur - prev) / prev) vs rest

/-- Sample variance, the square of the pandas `.std()` with its default
`ddof = 1`: `Σ (x - mean)² / (n - 1)`. -/
def sampleVariance (xs : List ℚ) : ℚ :=
  ((xs.map (fun x => (x - meanL xs) ^ 2)).sum) / ((xs.length : ℚ) - 1)

/-- The value a pandas `.std()` returns: NaN when fewer than two data
points (ddof = 1), otherwise `√(sample variance)`, represented by that
variance. -/
inductive PdStd where
  | nan : PdStd
  | sqrtOf (variance : ℚ) : PdStd
deriving DecidableEq, Repr

/-- Model of the pandas `.std()` on a list of rationals. -/
def pdStd (xs : List ℚ) : PdStd :=
  if xs.length < 2 then .nan else .sqrtOf (sampleVariance xs)

/-- The branch test `std_daily_return > 0` of backtester.py line 157:
`NaN > 0` is `False` in Python, and for `v ≥ 0` (a variance is a sum of
squares over a positive count) `√v > 0 ↔ v > 0`, so the test on the
represented square root is the test on the variance. -/
def stdPositive : PdStd → Bool
  | .nan => false
  | .sqrtOf v => decide (0 < v)

/-- The Sharpe-ratio value of backtester.py lines 153–160: exactly `0.0`
when the standard deviation is not `> 0`, otherwise the irrational
`√252 * (mean - risk_free) / √variance`, represented by its two rational
parameters (`risk_free = 0.0434 / 252`). -/
inductive SharpeOutcome where
  | zero : SharpeOutcome
  | formula (mean variance : ℚ) : SharpeOutcome
deriving DecidableEq, Repr

/-- Sharpe computation over the daily-return series. -/
def sharpe_of (returns : List ℚ) : SharpeOutcome :=
  if stdPositive (pdStd returns) then
    .formula (meanL returns) (sampleVariance returns)
  else .zero

/-- Running maximum (`cummax`) continued from an accumulated maximum `m`. -/
def cummaxAux (m : ℚ) : List ℚ → List ℚ
  | [] => []
  | v :: vs => max m v :: cummaxAux (max m v) vs

/-- Model of `df["Portfolio Value"].cummax()`: the running maximum series. -/
def cummax : List ℚ → List ℚ
  | [] => []
  | v :: vs => v :: cummaxAux v vs

/-- Model of `(df["Portfolio Value"] - rolling_max) / rolling_max` (line 164). -/
def drawdowns (vs : List ℚ) : List ℚ :=
  List.zipWith (fun v m => (v - m) / m) vs (cummax vs)

/-- Model of `drawdown.min() * 100` (line 165) on a nonempty series. -/
def max_drawdown_of (vs : List ℚ) : ℚ :=
  (match drawdowns vs with
   | [] => 0
   | d :: ds => ds.foldl min d) * 100

/-- Embedding of `Backtester._compute_performance_metrics` (backtester.py lines
148–167) as a function of the recorded portfolio-value series: `none`
models the `KeyError` that `pd.DataFrame([]).set_index("Date")` raises on
an empty series; otherwise the Sharpe outcome and the max drawdown (the
computed pair is logged and then discarded by the caller). -/
def compute_performance_metrics (vs : List ℚ) :
    Option (SharpeOutcome × ℚ) :=
  if vs.isEmpty then none
  else some (sharpe_of (pct_change_fillna vs), max_drawdown_of vs)

/-! ## Simulation loop (`Backtester.run_backtest`)

Calendar dates are modelled as integers (one unit = one calendar day); a
ticker's fetched price data is its list of `(date, close)` bars, the frame
`fetch_price_data` builds, indexed by date. -/

/-- The per-ticker price resolution of backtester.py lines 111 and
116–118: the close of the bar dated exactly `d - 1`
(`previous_date_str = current_date - timedelta(days=1)`; membership in the
frame's index is an exact-date lookup), `none` when no such bar exists —
also covering `fetch_price_data` returning `None` on an empty series. -/
def dayPrice (bars : List (ℤ × ℚ)) (d : ℤ) : Option ℚ :=
  lookupA (d - 1) bars

/-- Maximum of a list of dates, `none` when empty. -/
def maxD : List ℤ → Option ℤ
  | [] => none
  | x :: xs =>
      match maxD xs with
      | none => some x
      | some m => some (max x m)

/-- Modelled from the spec's words, for comparison with `dayPrice` (the
source's resolution): "resolve a current price as the most recent bar with
`date < d`"; `none` exactly when no bar with `date < d` exists. -/
def specDayPrice (bars : List (ℤ × ℚ)) (d : ℤ) : Option ℚ :=
  match maxD ((bars.map Prod.fst).filter (fun x => x < d)) with
  | none => none
  | some m => lookupA m bars

/-- The day's `current_prices` dict (backtester.py lines 114–118): every
ticker whose `dayPrice` resolves, keyed in ticker-list order. -/
def buildPrices (fetch : String → List (ℤ × ℚ)) (tickers : List String)
    (d : ℤ) : List (String × ℚ) :=
  tickers.filterMap (fun t => (dayPrice (fetch t) d).map (fun c => (t, c)))

/-- Embedding of `Backtester.calculate_portfolio_value` (lines 94–100): cash plus
`shares × current price` over every position whose ticker has a current
price. -/
def calculate_portfolio_value (p : Portfolio)
    (current_prices : List (String × ℚ)) : ℚ :=
  p.positions.foldl
    (fun acc tp =>
      match lookupA tp.1 current_prices with
      | some pr => acc + (tp.2.shares : ℚ) * pr
      | none => acc)
    p.cash

/-- Loop state of `run_backtest`: the mutable portfolio and the
`portfolio_values` series (values only; the recorded dates play no further
role in the computation). -/
structure BState where
  portfolio : Portfolio
  portfolio_values : List ℚ
deriving DecidableEq, Repr

/-- A strategy decision list as the agent returns it: per-ticker
`(ticker, action, quantity)` after the `.get` defaults of line 134. -/
abbrev Decisions := List (String × String × ℤ)

/-- One iteration of the `for current_date in dates` loop (backtester.py
lines 109–140): build the day's prices, skip the day when they are empty,
otherwise take the agent's decisions, execute each decision whose ticker
has a price (tickers priced today are constructed tickers, so the
`positions` lookup inside cannot raise here), and append the day's
valuation.  The agent is abstracted as a function of the current portfolio
and the day. -/
def runDay (tickers : List String) (fetch : String → List (ℤ × ℚ))
    (agent : Portfolio → ℤ → Decisions) (st : BState) (d : ℤ) : BState :=
  let current_prices := buildPrices fetch tickers d
  if current_prices.isEmpty then st
  else
    let decisions := agent st.portfolio d
    let p' := decisions.foldl
      (fun p dec =>
        match lookupA dec.1 current_prices with
        | some pr => (execute_trade p dec.1 dec.2.1 dec.2.2 pr).portfolio
        | none => p)
      st.portfolio
    { portfolio := p'
      portfolio_values :=
        st.portfolio_values ++ [calculate_portfolio_value p' current_prices] }

/-- The dict `run_backtest` returns (backtester.py lines 107 and 146):
`performance_metrics = {"sharpe_ratio": None, "max_drawdown": None}`. -/
structure RunOutput where
  sharpe_ratio : Option SharpeOutcome
  max_drawdown : Option ℚ
deriving DecidableEq, Repr

/-- Embedding of `Backtester.run_backtest` (lines 102–146): fold the day loop over the
business-day range (given as a date list), then call
`_compute_performance_metrics` — whose result is only logged — and return
the `performance_metrics` dict, which was initialized to
`{"sharpe_ratio": None, "max_drawdown": None}` and never written to.
`none` models the run aborting with the pandas `KeyError` when the
recorded value series is empty. -/
def run_backtest (tickers : List String) (fetch : String → List (ℤ × ℚ))
    (agent : Portfolio → ℤ → Decisions) (initial_capital : ℚ)
    (days : List ℤ) : Option (RunOutput × BState) :=
  let final := days.foldl (runDay tickers fetch agent)
    ⟨initPortfolio tickers initial_capital, []⟩
  match compute_performance_metrics final.portfolio_values with
  | none => none
  | some _ => some (⟨none, none⟩, final)

/-! ## Association-list and ledger lemmas -/

theorem lookupA_updateA_self {α : Type} (l : List (String × α)) (k : String) (v : α) :
    lookupA k (updateA l k v) = (lookupA k l).map (fun _ => v) := by
  induction l with
  | nil => simp [lookupA, updateA]
  | cons hd tl ih =>
      obtain ⟨k', v'⟩ := hd
      by_cases h : k' = k
      · simp [lookupA, updateA, h]
      · simp [lookupA, updateA, h, ih]

theorem lookupA_updateA_none {α : Type} (l : List (String × α)) (s k : String) (v : α)
    (h : lookupA s l = none) : lookupA s (updateA l k v) = none := by
  induction l with
  | nil => simp [lookupA, updateA]
  | cons hd tl ih =>
      obtain ⟨k', v'⟩ := hd
      by_cases hk : k' = k
      · by_cases hs : k' = s
        · simp [lookupA, hs] at h
        · simp only [updateA, hk, if_pos rfl] at *
          simp [lookupA, hs] at h ⊢
          exact h
      · by_cases hs : k' = s
        · simp [lookupA, hs] at h
        · simp only [updateA, if_neg hk] at *
          simp [lookupA, hs] at h ⊢
          exact ih h

theorem lookupA_init_not_mem {α : Type} (tickers : List String) (t : String) (x : α)
    (h : t ∉ tickers) : lookupA t (tickers.map (fun s => (s, x))) = none := by
  induction tickers with
  | nil => rfl
  | cons hd tl ih =>
      simp only [List.mem_cons, not_or] at h
      simp only [List.map_cons, lookupA]
      rw [if_neg (fun he => h.1 he.symm)]
      exact ih h.2

theorem lookupA_init_mem {α : Type} (tickers : List String) (t : String) (x : α)
    (h : t ∈ tickers) : lookupA t (tickers.map (fun s => (s, x))) = some x := by
  induction tickers with
  | nil => cases h
  | cons hd tl ih =>
      by_cases he : hd = t
      · simp [lookupA, he]
      · have ht : t ∈ tl := by
          rcases List.mem_cons.mp h with h1 | h1
          · exact absurd h1.symm he
          · exact h1
        simp [lookupA, he, ih ht]

/-- A trade with non-positive quantity, an unknown ticker, an unaffordable
buy, an oversized sell, or an unrecognized action leaves cash where it was;
an affordable buy leaves `cash - quantity*price ≥ 0` by the guard; a sell
adds `quantity*price ≥ 0`.  So one `execute_trade` call preserves
non-negative cash whenever the price is non-negative. -/
theorem cash_nonneg_step (p : Portfolio) (tk act : String) (q : ℤ) (pr : ℚ)
    (hc : 0 ≤ p.cash) (hpr : 0 ≤ pr) :
    0 ≤ (execute_trade p tk act q pr).portfolio.cash := by
  unfold execute_trade
  by_cases hq : q ≤ 0
  · simpa [hq]
  · rw [if_neg hq]
    cases hlk : lookupA tk p.positions with
    | none => simpa
    | some pos =>
        by_cases hb : act = "buy"
        · by_cases haff : (q : ℚ) * pr ≤ p.cash
          · simp [hb, haff, sub_nonneg]
          · simpa [hb, haff]
        · by_cases hs : act = "sell"
          · by_cases hsh : q ≤ pos.shares
            · have hqpr : 0 ≤ (q : ℚ) * pr := by
                have : (0:ℚ) < q := by exact_mod_cast lt_of_not_le hq
                exact mul_nonneg (le_of_lt this) hpr
              cases hrg : lookupA tk p.realized_gains <;>
                simp [hb, hs, hsh, hrg] <;> linarith
            · simpa [hb, hs, hsh]
          · simpa [hb, hs]

theorem cash_nonneg_run (p : Portfolio) (ts : List Trade)
    (hc : 0 ≤ p.cash) (hpr : ∀ t ∈ ts, 0 ≤ t.2.2.2) :
    0 ≤ (runTrades p ts).cash := by
  induction ts generalizing p with
  | nil => simpa [runTrades]
  | cons t ts ih =>
      simp only [runTrades, List.foldl_cons]
      exact ih _
        (cash_nonneg_step p t.1 t.2.1 t.2.2.1 t.2.2.2 hc (hpr t (List.mem_cons_self t ts)))
        (fun u hu => hpr u (List.mem_cons_of_mem _ hu))

/-- A buy whose required cash `quantity * price` exceeds available cash
changes nothing (the insufficient-cash branch only logs; an unknown ticker
raises before touching state; a non-positive quantity returns early). -/
theorem buy_insufficient (p : Portfolio) (tk : String) (q : ℤ) (pr : ℚ)
    (h : p.cash < q * pr) :
    (execute_trade p tk "buy" q pr).portfolio = p := by
  unfold execute_trade
  by_cases hq : q ≤ 0
  · simp [hq]
  · rw [if_neg hq]
    cases hlk : lookupA tk p.positions with
    | none => rfl
    | some pos => simp [hlk, not_le.mpr h]

theorem execute_trade_preserves_missing (p : Portfolio) (tk act s : String) (q : ℤ) (pr : ℚ)
    (h : lookupA s p.positions = none) :
    lookupA s (execute_trade p tk act q pr).portfolio.positions = none := by
  unfold execute_trade
  by_cases hq : q ≤ 0
  · simpa [hq]
  · rw [if_neg hq]
    cases hlk : lookupA tk p.positions with
    | none => simpa
    | some pos =>
        by_cases hb : act = "buy"
        · by_cases haff : (q : ℚ) * pr ≤ p.cash
          · simp [hb, haff, lookupA_updateA_none _ _ _ _ h]
          · simpa [hb, haff]
        · by_cases hs : act = "sell"
          · by_cases hsh : q ≤ pos.shares
            · cases hrg : lookupA tk p.realized_gains <;>
                simp [hb, hs, hsh, hrg, lookupA_updateA_none _ _ _ _ h]
            · simpa [hb, hs, hsh]
          · simpa [hb, hs]

theorem runTrades_preserves_missing (p : Portfolio) (ts : List Trade) (s : String)
    (h : lookupA s p.positions = none) :
    lookupA s (runTrades p ts).positions = none := by
  induction ts generalizing p with
  | nil => simpa [runTrades]
  | cons t ts ih =>
      simp only [runTrades, List.foldl_cons]
      exact ih _ (execute_trade_preserves_missing p t.1 t.2.1 s t.2.2.1 t.2.2.2 h)

/-! ## Claim theorems -/

/-- Claim C3: for every sequence of `execute_trade` calls with non-negative
prices, starting from a portfolio with non-negative cash, cash is ≥ 0
after every call; and a buy whose required cash `quantity × price` exceeds
available cash leaves the portfolio unchanged. -/
theorem C3_cash_never_negative (p : Portfolio) (ts : List Trade)
    (hc : 0 ≤ p.cash) (hpr : ∀ t ∈ ts, 0 ≤ t.2.2.2) :
    (∀ n, 0 ≤ (runTrades p (ts.take n)).cash) ∧
    (∀ (q : Portfolio) (tk : String) (qty : ℤ) (price : ℚ),
        q.cash < qty * price →
        (execute_trade q tk "buy" qty price).portfolio = q) := by
  constructor
  · intro n
    exact cash_nonneg_run p (ts.take n) hc
      (fun t ht => hpr t (List.take_subset n ts ht))
  · intro q tk qty price h
    exact buy_insufficient q tk qty price h

/-- Witness for C3 at a concrete portfolio and trade sequence. -/
theorem C3_cash_never_negative_witness :
    0 ≤ (runTrades (initPortfolio ["A"] 100)
          ([(("A" : String), ("buy" : String), (1 : ℤ), (10 : ℚ))].take 1)).cash :=
  (C3_cash_never_negative (initPortfolio ["A"] 100) [("A", "buy", 1, 10)]
    (by norm_num [initPortfolio])
    (by intro t ht
        rw [List.mem_singleton] at ht
        subst ht
        norm_num)).1 1

/-- Claim C5: selling strictly more shares than held (share count read as 0
for a ticker with no entry) leaves the entire ledger — cash, positions,
realized gains — identical to before the call. -/
theorem C5_oversell_rejected (p : Portfolio) (tk : String) (q : ℤ) (pr : ℚ)
    (h : sharesHeld p tk < q) :
    (execute_trade p tk "sell" q pr).portfolio = p := by
  unfold execute_trade
  by_cases hq : q ≤ 0
  · simp [hq]
  · rw [if_neg hq]
    cases hlk : lookupA tk p.positions with
    | none => rfl
    | some pos =>
        have hsh : pos.shares < q := by
          simpa [sharesHeld, hlk] using h
        simp [hlk, not_le.mpr hsh]

/-- Witness for C5: selling 5 shares of a ticker holding 0. -/
theorem C5_oversell_rejected_witness :
    (execute_trade (initPortfolio ["A"] 100) "A" "sell" 5 3).portfolio =
      initPortfolio ["A"] 100 :=
  C5_oversell_rejected (initPortfolio ["A"] 100) "A" 5 3 (by decide)

/-- Claim C10: a ticker absent from the construction-time ticker list has no
entry in `positions` (after any number of trades), so `execute_trade` on it
with positive quantity raises `KeyError` — the raise happens on the
`positions[ticker]` lookup, before any branch, so no position is created
and the ledger is untouched. -/
theorem C10_unknown_ticker_raises (tickers : List String) (cap : ℚ)
    (ts : List Trade) (tk act : String) (q : ℤ) (pr : ℚ)
    (_hact : act = "buy" ∨ act = "sell") (htk : tk ∉ tickers) (hq : 0 < q) :
    execute_trade (runTrades (initPortfolio tickers cap) ts) tk act q pr =
      ⟨true, runTrades (initPortfolio tickers cap) ts⟩ := by
  have h0 : lookupA tk (initPortfolio tickers cap).positions = none :=
    lookupA_init_not_mem tickers tk _ htk
  have h1 := runTrades_preserves_missing (initPortfolio tickers cap) ts tk h0
  unfold execute_trade
  rw [if_neg (not_le.mpr hq), h1]

/-- Witness for C10: buying a ticker that was never constructed. -/
theorem C10_unknown_ticker_raises_witness :
    execute_trade (runTrades (initPortfolio ["A"] 100) []) "B" "buy" 1 5 =
      ⟨true, runTrades (initPortfolio ["A"] 100) []⟩ :=
  C10_unknown_ticker_raises ["A"] 100 [] "B" "buy" 1 5 (Or.inl rfl)
    (by decide) (by decide)

/-- An affordable buy with positive quantity on a held (non-negative)
position: the exact resulting ledger, with the weighted-average cost
written out. -/
theorem buy_success (p : Portfolio) (tk : String) (q : ℤ) (pr : ℚ) (pos : Position)
    (hlk : lookupA tk p.positions = some pos) (hq : 0 < q)
    (haff : (q : ℚ) * pr ≤ p.cash) (hsh : 0 ≤ pos.shares) :
    execute_trade p tk "buy" q pr =
      ⟨false,
        { p with
            cash := p.cash - q * pr
            positions := updateA p.positions tk
              ⟨pos.shares + q,
               ((pos.shares : ℚ) * pos.avg_cost + q * pr) /
                 ((pos.shares + q : ℤ) : ℚ)⟩ }⟩ := by
  unfold execute_trade
  rw [if_neg (not_le.mpr hq), hlk]
  have hpos : 0 < pos.shares + q := by omega
  simp [haff, hpos]

/-- A successful sell's cash and positions, independent of whether the
`realized_gains` entry exists (those two mutations precede the
`realized_gains` read in the source). -/
theorem sell_success_core (p : Portfolio) (tk : String) (q : ℤ) (pr : ℚ) (pos : Position)
    (hlk : lookupA tk p.positions = some pos) (hq : 0 < q) (hsh : q ≤ pos.shares) :
    (execute_trade p tk "sell" q pr).portfolio.cash = p.cash + q * pr ∧
    (execute_trade p tk "sell" q pr).portfolio.positions =
      updateA p.positions tk { pos with shares := pos.shares - q } := by
  unfold execute_trade
  rw [if_neg (not_le.mpr hq), hlk]
  cases hrg : lookupA tk p.realized_gains <;> simp [hsh, hrg]

/-- Claim C4, amended: an affordable buy of `q` at `p` followed by a sell
of `q` at `p` restores the share count and the cash, but the stored
average cost ends at the post-buy weighted average
`(shares·avg_cost + q·p)/(shares + q)`, not at its prior value (sells
never touch `avg_cost`). -/
theorem C4_round_trip_amended (p : Portfolio) (tk : String) (q : ℤ) (pr : ℚ) (pos : Position)
    (hlk : lookupA tk p.positions = some pos) (hq : 0 < q)
    (haff : (q : ℚ) * pr ≤ p.cash) (hsh : 0 ≤ pos.shares) :
    sharesHeld ((execute_trade ((execute_trade p tk "buy" q pr).portfolio)
        tk "sell" q pr).portfolio) tk = pos.shares ∧
    ((execute_trade ((execute_trade p tk "buy" q pr).portfolio)
        tk "sell" q pr).portfolio).cash = p.cash ∧
    avgCostOf ((execute_trade ((execute_trade p tk "buy" q pr).portfolio)
        tk "sell" q pr).portfolio) tk =
      ((pos.shares : ℚ) * pos.avg_cost + q * pr) / ((pos.shares + q : ℤ) : ℚ) := by
  set A : ℚ := ((pos.shares : ℚ) * pos.avg_cost + q * pr) / ((pos.shares + q : ℤ) : ℚ)
    with hA
  have hbuy := buy_success p tk q pr pos hlk hq haff hsh
  set p1 := (execute_trade p tk "buy" q pr).portfolio with hp1
  have hp1eq : p1 = { p with
      cash := p.cash - q * pr
      positions := updateA p.positions tk ⟨pos.shares + q, A⟩ } := by
    rw [hp1, hbuy]
  have hlk1 : lookupA tk p1.positions = some ⟨pos.shares + q, A⟩ := by
    rw [hp1eq]
    simp [lookupA_updateA_self, hlk]
  have hsh1 : q ≤ (Position.mk (pos.shares + q) A).shares := by simp; omega
  have hsell := sell_success_core p1 tk q pr _ hlk1 hq hsh1
  refine ⟨?_, ?_, ?_⟩
  · rw [sharesHeld, hsell.2]
    simp [lookupA_updateA_self, hlk1]
  · rw [hsell.1, hp1eq]
    ring
  · rw [avgCostOf, hsell.2]
    simp [lookupA_updateA_self, hlk1]

/-- Counterexample to claim C4 as stated: from the freshly constructed
single-ticker portfolio (cash 100, position 0 shares at average cost 0),
buying 1 share at 10 and selling 1 share at 10 leaves the stored average
cost at 10, not at its prior value 0 — so the round trip does not restore
the average cost. -/
theorem C4_round_trip_counterexample :
    avgCostOf (runTrades (initPortfolio ["A"] 100)
        [("A", "buy", 1, 10), ("A", "sell", 1, 10)]) "A" ≠
      avgCostOf (initPortfolio ["A"] 100) "A" := by
  norm_num [runTrades, execute_trade, initPortfolio, lookupA, updateA, avgCostOf]

/-- Witness for the amended C4 at a concrete round trip. -/
theorem C4_round_trip_amended_witness :
    sharesHeld ((execute_trade ((execute_trade (initPortfolio ["A"] 100)
        "A" "buy" 1 10).portfolio) "A" "sell" 1 10).portfolio) "A" =
      (Position.mk 0 0).shares ∧
    ((execute_trade ((execute_trade (initPortfolio ["A"] 100)
        "A" "buy" 1 10).portfolio) "A" "sell" 1 10).portfolio).cash =
      (initPortfolio ["A"] 100).cash ∧
    avgCostOf ((execute_trade ((execute_trade (initPortfolio ["A"] 100)
        "A" "buy" 1 10).portfolio) "A" "sell" 1 10).portfolio) "A" =
      (((Position.mk 0 0).shares : ℚ) * (Position.mk 0 0).avg_cost + (1 : ℤ) * (10 : ℚ)) /
        (((Position.mk 0 0).shares + 1 : ℤ) : ℚ) :=
  C4_round_trip_amended (initPortfolio ["A"] 100) "A" 1 10 ⟨0, 0⟩ rfl (by decide)
    (by norm_num [initPortfolio]) (by decide)

/-- A sell leaves the stored average cost of the ticker unchanged in every
branch: rejected, raising, or successful (a successful sell only rewrites
the share count). -/
theorem sell_preserves_avg_cost (p : Portfolio) (tk : String) (q : ℤ) (pr : ℚ) :
    avgCostOf (execute_trade p tk "sell" q pr).portfolio tk = avgCostOf p tk := by
  unfold execute_trade
  by_cases hq : q ≤ 0
  · simp [hq]
  · rw [if_neg hq]
    cases hlk : lookupA tk p.positions with
    | none => rfl
    | some pos =>
        by_cases hsh : q ≤ pos.shares
        · cases hrg : lookupA tk p.realized_gains <;>
            simp [hsh, hrg, avgCostOf, lookupA_updateA_self, hlk]
        · simp [hsh]

/-- Claim C7, amended: every constructed ticker starts with shares 0 and
average cost 0, but a sell — in particular a full liquidation — leaves the
stored average cost exactly where it was, so a reachable zero-share
position need not have average cost 0. -/
theorem C7_avg_cost_amended (tickers : List String) (cap : ℚ) (t : String)
    (ht : t ∈ tickers) (p : Portfolio) (tk : String) (q : ℤ) (pr : ℚ) :
    lookupA t (initPortfolio tickers cap).positions = some ⟨0, 0⟩ ∧
    avgCostOf (execute_trade p tk "sell" q pr).portfolio tk = avgCostOf p tk :=
  ⟨lookupA_init_mem tickers t _ ht, sell_preserves_avg_cost p tk q pr⟩

/-- Counterexample to claim C7 as stated: buying 1 share at 10 and then
selling the entire holding reaches a ledger whose position has
`shares = 0` yet `avg_cost = 10 ≠ 0`. -/
theorem C7_counterexample :
    (lookupA "A" (runTrades (initPortfolio ["A"] 100)
        [("A", "buy", 1, 10), ("A", "sell", 1, 10)]).positions).elim False
      (fun pos => pos.shares = 0 ∧ pos.avg_cost ≠ 0) := by
  norm_num [runTrades, execute_trade, initPortfolio, lookupA, updateA]

/-- Witness for the amended C7 at a concrete ticker list and sell. -/
theorem C7_avg_cost_amended_witness :
    lookupA "A" (initPortfolio ["A"] 100).positions = some ⟨0, 0⟩ ∧
    avgCostOf (execute_trade (initPortfolio ["A"] 100) "A" "sell" 1 5).portfolio "A" =
      avgCostOf (initPortfolio ["A"] 100) "A" :=
  C7_avg_cost_amended ["A"] 100 "A" (by decide) (initPortfolio ["A"] 100) "A" 1 5

theorem maxD_mem (l : List ℤ) (m : ℤ) (h : maxD l = some m) : m ∈ l := by
  induction l generalizing m with
  | nil => simp [maxD] at h
  | cons x xs ih =>
      cases hm : maxD xs with
      | none =>
          rw [maxD, hm] at h
          obtain rfl := Option.some_inj.mp h
          exact List.mem_cons_self x xs
      | some m' =>
          rw [maxD, hm] at h
          obtain rfl := Option.some_inj.mp h
          rcases max_choice x m' with hc | hc
          · rw [hc]; exact List.mem_cons_self x xs
          · rw [hc]; exact List.mem_cons_of_mem x (ih m' hm)

theorem le_maxD (l : List ℤ) (x : ℤ) (hx : x ∈ l) :
    ∃ m, maxD l = some m ∧ x ≤ m := by
  induction l with
  | nil => cases hx
  | cons y ys ih =>
      cases hm : maxD ys with
      | none =>
          rcases List.mem_cons.mp hx with h | h
          · exact ⟨y, by rw [maxD, hm], le_of_eq h⟩
          · obtain ⟨m, hm2, -⟩ := ih h
            rw [hm] at hm2
            cases hm2
      | some m' =>
          rcases List.mem_cons.mp hx with h | h
          · exact ⟨max y m', by rw [maxD, hm], by rw [h]; exact le_max_left y m'⟩
          · obtain ⟨m, hm2, hle⟩ := ih h
            rw [hm] at hm2
            obtain rfl := Option.some_inj.mp hm2
            exact ⟨max y m', by rw [maxD, hm], le_trans hle (le_max_right y m')⟩

theorem lookupA_mem_keys {κ α : Type} [DecidableEq κ] (l : List (κ × α)) (k : κ) (c : α)
    (h : lookupA k l = some c) : k ∈ l.map Prod.fst := by
  induction l with
  | nil => simp [lookupA] at h
  | cons hd tl ih =>
      obtain ⟨k', v'⟩ := hd
      by_cases he : k' = k
      · simp [he]
      · rw [lookupA, if_neg he] at h
        simp [ih h]

theorem lookupA_eq_none_iff {κ α : Type} [DecidableEq κ] (l : List (κ × α)) (k : κ) :
    lookupA k l = none ↔ ∀ b ∈ l, b.1 ≠ k := by
  induction l with
  | nil => simp [lookupA]
  | cons hd tl ih =>
      obtain ⟨k', v'⟩ := hd
      by_cases he : k' = k
      · simp [lookupA, he]
      · simp [lookupA, he, ih]

/-- Claim C2, amended: the loop prices a ticker from the bar dated exactly
one calendar day before `d`, not from the most recent bar before `d`.
When a bar at `d - 1` exists the two rules agree (no integer date between
`d - 1` and `d` can occur), so the resolved close then is the
most-recent-before-`d` close; and a ticker is excluded exactly when it has
no bar dated `d - 1` — even if older bars exist. -/
theorem C2_price_resolution_amended (bars : List (ℤ × ℚ)) (d : ℤ) :
    (∀ c, dayPrice bars d = some c → specDayPrice bars d = some c) ∧
    (dayPrice bars d = none ↔ ∀ b ∈ bars, b.1 ≠ d - 1) := by
  constructor
  · intro c hc
    have hkmem : d - 1 ∈ bars.map Prod.fst := lookupA_mem_keys bars (d - 1) c hc
    have hfmem : d - 1 ∈ (bars.map Prod.fst).filter (fun x => x < d) :=
      List.mem_filter.mpr ⟨hkmem, by simp⟩
    obtain ⟨m, hm, hle⟩ := le_maxD _ _ hfmem
    have hm2 := maxD_mem _ _ hm
    have hlt : m < d := by
      have := List.mem_filter.mp hm2
      simpa using this.2
    have hmeq : m = d - 1 := by omega
    rw [specDayPrice, hm, hmeq]
    exact hc
  · exact lookupA_eq_none_iff bars (d - 1)

/-- Counterexample to claim C2 as stated: a ticker whose only bar is two
days old is excluded from the day's pricing map (the code looks up exactly
`d - 1`), although a bar with `date < d` exists and the spec's
most-recent-bar rule would price it at 10. -/
theorem C2_counterexample :
    dayPrice [((0 : ℤ), (10 : ℚ))] 2 = none ∧
    specDayPrice [((0 : ℤ), (10 : ℚ))] 2 = some 10 :=
  ⟨rfl, rfl⟩

/-- Witness for the amended C2: with a bar dated exactly `d - 1` the two
resolution rules agree. -/
theorem C2_price_resolution_amended_witness :
    specDayPrice [((1 : ℤ), (7 : ℚ))] 2 = some 7 :=
  (C2_price_resolution_amended [((1 : ℤ), (7 : ℚ))] 2).1 7 rfl

/-- Claim C6, amended: `calculate_var` multiplies `capital × volatility`
by `z = 1.65` when the confidence level is exactly 0.95 and by `z = 2.33`
for every other confidence level, valid or not — no confidence level is
rejected; the only `None` outcome is a missing volatility. -/
theorem C6_var_amended (capital v conf : ℚ) (hconf : conf ≠ 95 / 100) :
    calculate_var capital (some v) (95 / 100) = some (capital * v * (165 / 100)) ∧
    calculate_var capital (some v) conf = some (capital * v * (233 / 100)) ∧
    calculate_var capital none conf = none := by
  refine ⟨?_, ?_, rfl⟩ <;> simp [calculate_var, z_score, hconf]

/-- Counterexample to claim C6 as stated: the unsupported confidence level
0.5 is not rejected — it silently yields the 99%-confidence value
`100 × 2 × 2.33 = 466`. -/
theorem C6_counterexample :
    calculate_var 100 (some 2) (1 / 2) = some 466 ∧
    calculate_var 100 (some 2) (1 / 2) = calculate_var 100 (some 2) (99 / 100) := by
  constructor <;> norm_num [calculate_var, z_score]

/-- Witness for the amended C6 at concrete capital, volatility and
confidence levels. -/
theorem C6_var_amended_witness :
    calculate_var 100 (some 2) (95 / 100) = some (100 * 2 * (165 / 100)) ∧
    calculate_var 100 (some 2) (99 / 100) = some (100 * 2 * (233 / 100)) ∧
    calculate_var 100 none (99 / 100) = none :=
  C6_var_amended 100 2 (99 / 100) (by norm_num)

/-- Claim C8, amended: an empty close series yields `None` (unavailable),
a series of ≥ 2 closes yields the standard deviation of the day-over-day
simple returns, but a 1-point series yields NaN (`np.std` of an empty
returns slice), not the unavailable marker. -/
theorem C8_volatility_amended (closes : List ℚ) :
    (closes = [] → get_volatility closes = none) ∧
    (closes.length = 1 → get_volatility closes = some NpStd.nan) ∧
    (2 ≤ closes.length →
      get_volatility closes = some (NpStd.sqrtOf (popVariance (simpleReturns closes)))) := by
  refine ⟨?_, ?_, ?_⟩
  · intro h
    simp [h, get_volatility]
  · intro h
    match closes, h with
    | [x], _ => simp [get_volatility, npStd, simpleReturns]
  · intro h
    match closes, h with
    | a :: b :: tl, _ =>
        have hlen : (simpleReturns (a :: b :: tl)).length ≠ 0 := by
          simp [simpleReturns]
        simp [get_volatility, npStd, hlen]

/-- Counterexample to claim C8 as stated: a 1-point price series (fewer
than 2 points) yields NaN, not the defined missing-value result `none`. -/
theorem C8_counterexample :
    get_volatility [10] = some NpStd.nan ∧ get_volatility [10] ≠ none :=
  ⟨rfl, by simp [get_volatility]⟩

/-- Witness for the amended C8 on a 2-point series. -/
theorem C8_volatility_amended_witness :
    get_volatility [(1 : ℚ), 2] =
      some (NpStd.sqrtOf (popVariance (simpleReturns [(1 : ℚ), 2]))) :=
  (C8_volatility_amended [(1 : ℚ), 2]).2.2 (by norm_num)

/-- Claim C9, amended: a 1-snapshot series yields Sharpe = 0 and max
drawdown = 0, and any nonempty series whose daily returns have zero
sample variance yields Sharpe exactly 0 — but the empty series makes the
computation raise (pandas `KeyError` on `set_index`), modelled as `none`,
rather than yielding zeros. -/
theorem C9_degenerate_metrics_amended (v : ℚ) (vs : List ℚ) (hne : vs ≠ [])
    (hvar : sampleVariance (pct_change_fillna vs) = 0) :
    compute_performance_metrics [v] = some (SharpeOutcome.zero, 0) ∧
    (compute_performance_metrics vs).map Prod.fst = some SharpeOutcome.zero ∧
    compute_performance_metrics [] = none := by
  refine ⟨?_, ?_, rfl⟩
  · simp [compute_performance_metrics, pct_change_fillna, sharpe_of, pdStd,
      stdPositive, max_drawdown_of, drawdowns, cummax, cummaxAux]
  · have hstd : stdPositive (pdStd (pct_change_fillna vs)) = false := by
      unfold pdStd stdPositive
      by_cases hlen : (pct_change_fillna vs).length < 2
      · simp [hlen]
      · simp [hlen, hvar]
    have hemp : vs.isEmpty = false := by
      cases vs with
      | nil => exact absurd rfl hne
      | cons a tl => rfl
    simp [compute_performance_metrics, hemp, sharpe_of, hstd]

/-- Counterexample to claim C9 as stated: on a 0-snapshot series the
metric computation raises (modelled `none`) instead of yielding
Sharpe = 0 and drawdown = 0. -/
theorem C9_counterexample :
    compute_performance_metrics ([] : List ℚ) = none ∧
    compute_performance_metrics ([] : List ℚ) ≠ some (SharpeOutcome.zero, 0) :=
  ⟨rfl, by simp [compute_performance_metrics]⟩

/-- Witness for the amended C9: a 1-point series and a constant 2-point
series. -/
theorem C9_degenerate_metrics_amended_witness :
    compute_performance_metrics [(7 : ℚ)] = some (SharpeOutcome.zero, 0) ∧
    (compute_performance_metrics [(100 : ℚ), 100]).map Prod.fst = some SharpeOutcome.zero ∧
    compute_performance_metrics [] = none :=
  C9_degenerate_metrics_amended 7 [(100 : ℚ), 100] (by simp)
    (by norm_num [sampleVariance, pct_change_fillna, meanL])

/-- Claim C1 (code bug): every completed `run_backtest` returns the
`performance_metrics` dict still holding `None` in both fields — the
Sharpe ratio and max drawdown computed by `_compute_performance_metrics`
are logged and discarded, never stored into the returned dict. -/
theorem C1_metrics_discarded (tickers : List String) (fetch : String → List (ℤ × ℚ))
    (agent : Portfolio → ℤ → Decisions) (cap : ℚ) (days : List ℤ)
    (out : RunOutput) (st : BState)
    (h : run_backtest tickers fetch agent cap days = some (out, st)) :
    RunOutput.sharpe_ratio out = none ∧ RunOutput.max_drawdown out = none := by
  simp only [run_backtest] at h
  split at h
  · cases h
  · obtain ⟨h1, h2⟩ := Prod.mk.inj (Option.some_inj.mp h)
    rw [← h1]
    exact ⟨rfl, rfl⟩

/-- Witness for C1: a completed one-day, one-ticker run (price bar dated
the previous day, agent holding throughout) returning the all-`None`
metrics dict. -/
theorem C1_metrics_discarded_witness :
    RunOutput.sharpe_ratio ⟨none, none⟩ = none ∧
    RunOutput.max_drawdown ⟨none, none⟩ = none :=
  C1_metrics_discarded ["A"] (fun _ => [((0 : ℤ), (10 : ℚ))]) (fun _ _ => []) 100 [1]
    ⟨none, none⟩ ⟨initPortfolio ["A"] 100, [100]⟩
    (by norm_num [run_backtest, runDay, buildPrices, dayPrice, lookupA, initPortfolio,
      calculate_portfolio_value, compute_performance_metrics, List.filterMap,
      sharpe_of, pct_change_fillna, pdStd, stdPositive, sampleVariance, meanL,
      max_drawdown_of, drawdowns, cummax, cummaxAux])

end Backtest
